import Mathlib

/-!
Verification of the workflow execution engine in
`src/AIAgent_Development/automation_workflow.py`.

The engine's data model (`WorkflowTask`, `WorkflowExecution`), the driver
loop `WorkflowEngine._execute_workflow_async`, the public methods
`execute_workflow` / `get_execution_status` / `cancel_execution`, the
`ErrorRecoveryManager`, and the `PerformanceMonitor` are embedded
shallowly below.  Dates are modelled as integer seconds, Python object
references as indices into an explicit heap, and the concurrent driver
as a labelled step relation interleaved with external `cancel` calls.
-/

namespace AutomationWorkflow

/-- `WorkflowStatus` enum (automation_workflow.py lines 25-32). -/
inductive WorkflowStatus where
  | pending
  | running
  | completed
  | failed
  | cancelled
  | paused
deriving DecidableEq, Repr

/-- `TaskStatus` enum (automation_workflow.py lines 34-40). -/
inductive TaskStatus where
  | pending
  | running
  | completed
  | failed
  | skipped
deriving DecidableEq, Repr

/-- `WorkflowTask` dataclass (automation_workflow.py lines 42-59).
`parameters` is kept opaque as a single string blob; timestamps are
integer seconds. -/
structure WorkflowTask where
  id : String
  name : String
  description : String
  function : String
  parameters : String
  dependencies : List String
  timeout : Nat := 300
  retry_count : Nat := 0
  max_retries : Nat := 3
  status : TaskStatus := .pending
  result : Option String := none
  error : Option String := none
  start_time : Option Nat := none
  end_time : Option Nat := none
  execution_time : Option Int := none
deriving DecidableEq, Repr

/-- The registered-functions table `WorkflowEngine.registered_functions`:
a name keyed association list of callables.  A callable takes the opaque
parameter blob and either returns a result string or raises (modelled as
`Except.error` carrying `str(e)`). -/
abbrev Registry : Type := List (String × (String → Except String String))

/-- `WorkflowEngine._execute_task` (lines 190-196): raises
`ValueError(f"Function {task.function} not registered")` when the name is
absent from the registry, otherwise calls the function on the task's
parameters. -/
def executeTask (registered : Registry) (task : WorkflowTask) :
    Except String String :=
  match List.lookup task.function registered with
  | none => .error ("Function " ++ task.function ++ " not registered")
  | some f => f task.parameters

/-- The state of one `WorkflowExecution` (lines 61-75) together with the
driver-local variables of `_execute_workflow_async` (lines 129-188):
`running` models the keys of the `running_tasks` dict, `completed` the
`completed_tasks` set, `driverDone` records that the driver function has
returned, and `now` is the wall clock read by `datetime.now()`. -/
structure ExecState where
  id : String
  workflow_id : String
  execStatus : WorkflowStatus
  tasks : List WorkflowTask
  start_time : Nat
  end_time : Option Nat := none
  total_execution_time : Option Int := none
  running : List String := []
  completed : List String := []
  driverDone : Bool := false
  now : Nat
deriving DecidableEq, Repr

/-- The fields of the `WorkflowExecution` object that
`get_execution_status` (lines 198-200) hands back to a polling caller;
the driver-local variables are not part of it. -/
structure ExecutionSnapshot where
  id : String
  workflow_id : String
  status : WorkflowStatus
  tasks : List WorkflowTask
  start_time : Nat
  end_time : Option Nat
  total_execution_time : Option Int
deriving DecidableEq, Repr

/-- `WorkflowEngine.get_execution_status` returns the stored execution
object; this is the snapshot a caller observes. -/
def get_execution_status_snapshot (s : ExecState) : ExecutionSnapshot :=
  { id := s.id
    workflow_id := s.workflow_id
    status := s.execStatus
    tasks := s.tasks
    start_time := s.start_time
    end_time := s.end_time
    total_execution_time := s.total_execution_time }

/-- Mutation of the task object with a given id inside the execution's
task list (the driver writes `task.status = ...` through the shared
list). -/
def updateTask (tid : String) (f : WorkflowTask → WorkflowTask)
    (tasks : List WorkflowTask) : List WorkflowTask :=
  tasks.map fun t => if t.id = tid then f t else t

/-- The driver's dispatch-phase write (lines 148-149):
`task.status = TaskStatus.RUNNING; task.start_time = datetime.now()`. -/
def dispatchUpdate (now : Nat) (t : WorkflowTask) : WorkflowTask :=
  { t with status := .running, start_time := some now }

/-- The driver's collection-phase write (lines 152-169): on a normal
future result the task becomes Completed with result, end time and
duration; on a raised exception it becomes Failed with `str(e)` and an
end time (the code sets no duration on this branch). -/
def finishUpdate (now : Nat) (res : Except String String)
    (t : WorkflowTask) : WorkflowTask :=
  match res with
  | .ok r =>
      { t with status := .completed, result := some r, end_time := some now,
               execution_time := t.start_time.map fun st => (now : Int) - (st : Int) }
  | .error e =>
      { t with status := .failed, error := some e, end_time := some now }

/-- `WorkflowEngine.cancel_execution` (lines 202-210) restricted to one
execution: flips a Running execution to Cancelled and reports `True`,
otherwise reports `False` and changes nothing. -/
def cancel_execution (s : ExecState) : Bool × ExecState :=
  if s.execStatus = .running then (true, { s with execStatus := .cancelled })
  else (false, s)

/-- Interleaved small-step semantics of one execution being driven by
`_execute_workflow_async` (lines 129-188) while callers may invoke
`cancel_execution` concurrently.

* `dispatch` — lines 140-149: a Pending task not yet in `running_tasks`
  whose every dependency id is in `completed_tasks` is submitted and
  marked Running.  The loop reads no execution status, so dispatch is
  possible in a Cancelled execution.
* `finish` — lines 152-169: a dispatched task whose future is done is
  recorded Completed or Failed according to `executeTask`, added to
  `completed_tasks` and removed from `running_tasks`.
* `loopExit` — lines 138 and 173-188: once `len(completed_tasks)` has
  reached `len(tasks)` the loop ends; the execution status is
  overwritten with Failed when some task is Failed and Completed
  otherwise, regardless of its current value; end time and total
  duration are stamped.
* `cancel` — lines 202-210: an external caller flips Running to
  Cancelled.
* `tick` — line 171: the `time.sleep(0.1)` pause lets wall-clock time
  advance while the driver is alive. -/
inductive Step (registered : Registry) : ExecState → ExecState → Prop where
  | dispatch (s : ExecState) (t : WorkflowTask)
      (hmem : t ∈ s.tasks)
      (hpending : t.status = .pending)
      (hnotrun : t.id ∉ s.running)
      (hdeps : ∀ d ∈ t.dependencies, d ∈ s.completed)
      (hlive : s.driverDone = false) :
      Step registered s
        { s with tasks := updateTask t.id (dispatchUpdate s.now) s.tasks,
                 running := t.id :: s.running }
  | finish (s : ExecState) (t : WorkflowTask)
      (hmem : t ∈ s.tasks)
      (hrun : t.id ∈ s.running)
      (hlive : s.driverDone = false) :
      Step registered s
        { s with tasks := updateTask t.id
                   (finishUpdate s.now (executeTask registered t)) s.tasks,
                 running := s.running.erase t.id,
                 completed := t.id :: s.completed }
  | loopExit (s : ExecState)
      (hlive : s.driverDone = false)
      (hall : s.tasks.length ≤ s.completed.length) :
      Step registered s
        { s with execStatus :=
                   if s.tasks.any (fun t => t.status == .failed)
                   then .failed else .completed,
                 end_time := some s.now,
                 total_execution_time := some ((s.now : Int) - (s.start_time : Int)),
                 driverDone := true }
  | cancel (s : ExecState)
      (hrunning : s.execStatus = .running) :
      Step registered s { s with execStatus := .cancelled }
  | tick (s : ExecState)
      (hlive : s.driverDone = false) :
      Step registered s { s with now := s.now + 1 }

/-- States reachable by the driver and concurrent cancellers from a
given starting state. -/
def Reachable (registered : Registry) (init s : ExecState) : Prop :=
  Relation.ReflTransGen (Step registered) init s

/-- The execution object as `execute_workflow` (lines 105-127) builds it
before starting the driver thread: status Running, the given task list,
start timestamp, empty driver-local state. -/
def initExec (wid eid : String) (tasks : List WorkflowTask) (t0 : Nat) :
    ExecState :=
  { id := eid, workflow_id := wid, execStatus := .running, tasks := tasks,
    start_time := t0, now := t0 }

/-! ## Engine-level model with explicit object identity

Python task objects are mutable and aliased: `create_workflow` stores the
caller's `WorkflowTask` objects, and `execute_workflow` builds the
execution's task list by the comprehension
`[task for task in self.workflows[workflow_id]]` (line 118), which copies
the *list* but not the task objects.  To reason about this sharing the
engine state keeps the task objects in a heap addressed by `Nat`
references; both the workflow definitions and the executions hold lists
of references. -/

/-- The `WorkflowExecution` record as stored in `WorkflowEngine.executions`
by `execute_workflow` (lines 113-122), holding references to its task
objects. -/
structure ExecRecord where
  id : String
  workflow_id : String
  status : WorkflowStatus
  taskRefs : List Nat
  start_time : Nat
deriving DecidableEq, Repr

/-- `WorkflowEngine` state: the task-object heap plus the `workflows` and
`executions` dicts (line 85-86), both keyed association lists where a
fresh entry at the front shadows an older one with the same key, exactly
as a Python dict assignment overwrites. -/
structure EngineState where
  heap : List WorkflowTask := []
  workflows : List (String × List Nat) := []
  executions : List (String × ExecRecord) := []
deriving Repr

/-- In-place mutation of the heap cell at a given reference. -/
def heapModify : List WorkflowTask → Nat → (WorkflowTask → WorkflowTask) →
    List WorkflowTask
  | [], _, _ => []
  | t :: ts, 0, f => f t :: ts
  | t :: ts, n + 1, f => t :: heapModify ts n f

/-- `WorkflowEngine.create_workflow` (lines 99-103): stores the caller's
task objects under the workflow id.  The objects are appended to the
heap and the definition records their references. -/
def create_workflow (st : EngineState) (workflow_id : String)
    (tasks : List WorkflowTask) : EngineState :=
  { st with heap := st.heap ++ tasks,
            workflows :=
              (workflow_id,
                (List.range tasks.length).map (· + st.heap.length))
              :: st.workflows }

/-- `WorkflowEngine.execute_workflow` (lines 105-127) with no
caller-supplied execution id: raises (`none`) when the workflow id is
unknown; otherwise allocates the id `f"{workflow_id}_{int(time.time())}"`
and stores a Running execution whose task list is the shallow list copy
`[task for task in self.workflows[workflow_id]]` — the same task
references as the stored definition. -/
def execute_workflow (st : EngineState) (workflow_id : String)
    (timeNow : Nat) : Option (String × EngineState) :=
  match List.lookup workflow_id st.workflows with
  | none => none
  | some refs =>
      let execution_id := workflow_id ++ "_" ++ toString timeNow
      some (execution_id,
        { st with executions :=
            (execution_id,
              { id := execution_id, workflow_id := workflow_id,
                status := .running, taskRefs := refs,
                start_time := timeNow }) :: st.executions })

/-- The driver's collection-phase success write (lines 156-161) performed
through a shared task reference: the heap cell itself is mutated. -/
def driverCompleteTask (st : EngineState) (ref : Nat) (res : String)
    (t1 : Nat) : EngineState :=
  { st with heap := heapModify st.heap ref fun t =>
      { t with status := .completed, result := some res,
               end_time := some t1,
               execution_time := t.start_time.map fun s0 => (t1 : Int) - (s0 : Int) } }

/-- Per-task statuses of a stored execution, read through its task
references. -/
def executionTaskStatuses (st : EngineState) (execution_id : String) :
    Option (List (Option TaskStatus)) :=
  (List.lookup execution_id st.executions).map fun ex =>
    ex.taskRefs.map fun r => (st.heap.get? r).map (·.status)

/-- Per-task statuses of a stored workflow definition, read through its
task references. -/
def workflowTaskStatuses (st : EngineState) (workflow_id : String) :
    Option (List (Option TaskStatus)) :=
  (List.lookup workflow_id st.workflows).map fun refs =>
    refs.map fun r => (st.heap.get? r).map (·.status)

/-! ## Error recovery manager -/

/-- The `ErrorRecoveryManager.recovery_strategies` table: error type name
to strategy.  A strategy takes the failed task and the error text and
either raises (`Except.error`) or returns a success flag. -/
abbrev StrategyTable : Type :=
  List (String × (WorkflowTask → String → Except String Bool))

/-- `ErrorRecoveryManager.attempt_recovery` (lines 228-245): looks up the
strategy registered for the error's type name; when the strategy runs
without raising and returns truthy, the task is reset to Pending, its
retry count incremented and its error cleared, and `True` is reported;
in every other case the task is untouched and `False` is reported. -/
def attempt_recovery (strategies : StrategyTable) (task : WorkflowTask)
    (error_type : String) (error : String) : Bool × WorkflowTask :=
  match List.lookup error_type strategies with
  | none => (false, task)
  | some strategy =>
      match strategy task error with
      | .error _ => (false, task)
      | .ok result =>
          if result then
            (true, { task with status := .pending,
                               retry_count := task.retry_count + 1,
                               error := none })
          else (false, task)

/-- `ErrorRecoveryManager.should_retry` (lines 247-250). -/
def should_retry (task : WorkflowTask) : Bool :=
  task.status == .failed && task.retry_count < task.max_retries

/-! ## Performance monitor -/

/-- A recorded metric value: numeric (`isinstance(value, (int, float))`)
or anything else. -/
inductive MetricValue where
  | num (q : ℚ)
  | other (s : String)
deriving DecidableEq, Repr

/-- Numeric view of a metric value. -/
def MetricValue.toNum : MetricValue → Option ℚ
  | .num q => some q
  | .other _ => none

/-- One sample appended by `PerformanceMonitor.record_metric`
(lines 263-275); the timestamp is integer seconds. -/
structure MetricRecord where
  timestamp : Int
  value : MetricValue
deriving DecidableEq, Repr

/-- `PerformanceMonitor.metrics` is a dict from metric name to its sample
history in recording order. -/
abbrev MetricsTable : Type := List (String × List MetricRecord)

/-- `PerformanceMonitor.record_metric` (lines 263-275): appends a sample
to the named history, creating the history on first use. -/
def record_metric (metrics : MetricsTable) (metric_name : String)
    (rec : MetricRecord) : MetricsTable :=
  if (List.lookup metric_name metrics).isSome then
    metrics.map fun p => if p.1 = metric_name then (p.1, p.2 ++ [rec]) else p
  else
    metrics ++ [(metric_name, [rec])]

/-- Result shape of `get_metric_summary`: the empty dict `{}`, the dict
`{"count": n}`, or the full statistics dict. -/
inductive MetricSummary where
  | empty
  | countOnly (count : Nat)
  | stats (count : Nat) (min max avg latest : ℚ)
deriving DecidableEq, Repr

/-- Last element of a nonempty list, as `values[-1]`. -/
def lastValue : ℚ → List ℚ → ℚ
  | v, [] => v
  | _, w :: ws => lastValue w ws

/-- `PerformanceMonitor.get_metric_summary` (lines 277-302): `{}` for an
unknown metric name; samples filtered to the trailing window when one is
given (`datetime.fromisoformat(r["timestamp"]) > now - time_window`);
`{}` again when no sample is in range; `{"count": n}` when none of the
in-range samples is numeric; otherwise count, min, max, arithmetic mean
and the last numeric value. -/
def get_metric_summary (metrics : MetricsTable) (metric_name : String)
    (now : Int) (time_window : Option Int) : MetricSummary :=
  match List.lookup metric_name metrics with
  | none => .empty
  | some recs =>
      let records := match time_window with
        | some w => recs.filter fun (r : MetricRecord) => decide (now - w < r.timestamp)
        | none => recs
      if records.isEmpty then .empty
      else
        match records.filterMap (fun (r : MetricRecord) => r.value.toNum) with
        | [] => .countOnly records.length
        | v :: vs =>
            .stats records.length (vs.foldl min v) (vs.foldl max v)
              (((v :: vs).foldl (· + ·) 0) / ((v :: vs).length : ℚ))
              (lastValue v vs)

/-! ## Observation helpers and driver-loop invariants -/

/-- Status of the task with a given id, as a poller reading the
execution's task list sees it (first match, as
`next(t for t in execution.tasks if t.id == task_id)`). -/
def taskStatusOf (s : ExecState) (tid : String) : Option TaskStatus :=
  (s.tasks.find? fun t => t.id == tid).map (·.status)

/-- Error text of the task with a given id. -/
def taskErrorOf (s : ExecState) (tid : String) : Option (Option String) :=
  (s.tasks.find? fun t => t.id == tid).map (·.error)

/-- A task as `WorkflowBuilder.add_simple_task` (lines 334-345) builds
it: description `f"Task {name}"`, empty parameters, all other fields at
their dataclass defaults. -/
def mkTask (tid fn : String) (deps : List String) : WorkflowTask :=
  { id := tid, name := tid, description := "Task " ++ tid, function := fn,
    parameters := "", dependencies := deps }

/-- A fresh execution starts from `execute_workflow` on a definition
whose tasks are all Pending with unique ids (spec §3 invariants), with
empty driver-local state. -/
def WellFormedInit (init : ExecState) : Prop :=
  init.execStatus = .running ∧ init.driverDone = false ∧
  (∀ t ∈ init.tasks, t.status = .pending) ∧
  (init.tasks.map (·.id)).Nodup ∧
  init.running = [] ∧ init.completed = []

/-- The task with a given id keeps its id under any in-place mutation
that does not touch the id field. -/
theorem updateTask_map_id (tid : String) (f : WorkflowTask → WorkflowTask)
    (hf : ∀ t, (f t).id = t.id) (tasks : List WorkflowTask) :
    (updateTask tid f tasks).map (·.id) = tasks.map (·.id) := by
  induction tasks with
  | nil => rfl
  | cons t ts ih =>
      simp only [updateTask, List.map_cons] at ih ⊢
      rw [ih]
      by_cases h : t.id = tid <;> simp [h, hf]

theorem dispatchUpdate_id (now : Nat) (t : WorkflowTask) :
    (dispatchUpdate now t).id = t.id := rfl

theorem finishUpdate_id (now : Nat) (res : Except String String)
    (t : WorkflowTask) : (finishUpdate now res t).id = t.id := by
  cases res <;> rfl

/-- No driver step changes the list of task ids of an execution. -/
theorem step_tasks_map_id {reg : Registry} {s s' : ExecState}
    (h : Step reg s s') : s'.tasks.map (·.id) = s.tasks.map (·.id) := by
  cases h with
  | dispatch t hmem hp hn hd hl =>
      exact updateTask_map_id t.id (dispatchUpdate _) (fun u => rfl) _
  | finish t hmem hr hl =>
      exact updateTask_map_id t.id (finishUpdate _ _) (fun u => finishUpdate_id _ _ u) _
  | loopExit hl hall => rfl
  | cancel hr => rfl
  | tick hl => rfl

/-- Unpacking membership in a mutated task list. -/
theorem mem_updateTask {t' : WorkflowTask} {tid : String}
    {f : WorkflowTask → WorkflowTask} {tasks : List WorkflowTask}
    (h : t' ∈ updateTask tid f tasks) :
    ∃ t ∈ tasks, t' = if t.id = tid then f t else t := by
  simp only [updateTask, List.mem_map] at h
  obtain ⟨t, ht, he⟩ := h
  exact ⟨t, ht, he.symm⟩

/-- In a list of tasks with pairwise distinct ids, the id determines the
task. -/
theorem eq_of_mem_of_id_eq {l : List WorkflowTask} {a b : WorkflowTask}
    (hnd : (l.map (·.id)).Nodup) (ha : a ∈ l) (hb : b ∈ l)
    (hid : a.id = b.id) : a = b := by
  induction l with
  | nil => cases ha
  | cons t ts ih =>
      simp only [List.map_cons, List.nodup_cons] at hnd
      cases ha with
      | head =>
          cases hb with
          | head => rfl
          | tail _ hb' =>
              exact absurd (hid ▸ List.mem_map_of_mem (·.id) hb') hnd.1
      | tail _ ha' =>
          cases hb with
          | head =>
              exact absurd (hid ▸ List.mem_map_of_mem (·.id) ha') hnd.1
          | tail _ hb' => exact ih hnd.2 ha' hb'

/-- Invariant: a returned driver (`driverDone`) and a Completed/Failed
execution status occur together — the final status write of
`_execute_workflow_async` is the only place either arises. -/
def DoneImpliesFinal (s : ExecState) : Prop :=
  (s.driverDone = true ∨ s.execStatus = .completed ∨ s.execStatus = .failed) →
    s.driverDone = true ∧ (s.execStatus = .completed ∨ s.execStatus = .failed)

/-- Invariant of claim C5: every Running task has all its dependency ids
in the driver's completed set. -/
def RunningDepsCompleted (s : ExecState) : Prop :=
  ∀ t ∈ s.tasks, t.status = .running → ∀ d ∈ t.dependencies, d ∈ s.completed

theorem doneImpliesFinal_step {reg : Registry} {s s' : ExecState}
    (hstep : Step reg s s') (hinv : DoneImpliesFinal s) :
    DoneImpliesFinal s' := by
  cases hstep with
  | dispatch t hmem hp hn hd hlive =>
      intro hante
      rcases hante with hdone | hfin
      · exact absurd hdone (by simp [hlive])
      · exact absurd (hinv (.inr hfin)).1 (by simp [hlive])
  | finish t hmem hr hlive =>
      intro hante
      rcases hante with hdone | hfin
      · exact absurd hdone (by simp [hlive])
      · exact absurd (hinv (.inr hfin)).1 (by simp [hlive])
  | loopExit hlive hall =>
      intro _
      refine ⟨rfl, ?_⟩
      by_cases h : s.tasks.any (fun t => t.status == .failed) <;> simp [h]
  | cancel hrunning =>
      intro hante
      rcases hante with hdone | hfin
      · rcases (hinv (.inl hdone)).2 with h | h <;> simp [h] at hrunning
      · rcases hfin with h | h <;> exact absurd h (by simp)
  | tick hlive =>
      intro hante
      rcases hante with hdone | hfin
      · exact absurd hdone (by simp [hlive])
      · exact absurd (hinv (.inr hfin)).1 (by simp [hlive])

theorem runningDepsCompleted_step {reg : Registry} {s s' : ExecState}
    (hnd : (s.tasks.map (·.id)).Nodup)
    (hstep : Step reg s s') (hinv : RunningDepsCompleted s) :
    RunningDepsCompleted s' := by
  cases hstep with
  | dispatch t hmem hpending hnotrun hdeps hlive =>
      intro u hu hrun d hd
      obtain ⟨v, hv, rfl⟩ := mem_updateTask hu
      by_cases hid : v.id = t.id
      · have hvt : v = t := eq_of_mem_of_id_eq hnd hv hmem hid
        subst hvt
        simp only [if_pos hid, dispatchUpdate] at hd
        exact hdeps d hd
      · simp only [if_neg hid] at hrun hd
        exact hinv v hv hrun d hd
  | finish t hmem hrunmem hlive =>
      intro u hu hrun d hd
      obtain ⟨v, hv, rfl⟩ := mem_updateTask hu
      by_cases hid : v.id = t.id
      · exfalso
        simp only [if_pos hid] at hrun
        cases hres : executeTask reg t <;>
          simp [finishUpdate, hres] at hrun
      · simp only [if_neg hid] at hrun hd
        exact List.mem_cons_of_mem _ (hinv v hv hrun d hd)
  | loopExit hlive hall => exact hinv
  | cancel hrunning => exact hinv
  | tick hlive => exact hinv

/-- The three invariants hold in every state reachable from a fresh
execution. -/
theorem reachable_invariants {reg : Registry} {init s : ExecState}
    (hwf : WellFormedInit init) (hre : Reachable reg init s) :
    s.tasks.map (·.id) = init.tasks.map (·.id) ∧
      DoneImpliesFinal s ∧ RunningDepsCompleted s := by
  obtain ⟨hrun, hdone, hpend, hnd, hr0, hc0⟩ := hwf
  induction hre with
  | refl =>
      refine ⟨rfl, ?_, ?_⟩
      · intro hante
        rcases hante with h | h | h
        · exact absurd h (by simp [hdone])
        · exact absurd h (by simp [hrun])
        · exact absurd h (by simp [hrun])
      · intro t ht hrunt
        exact absurd hrunt (by simp [hpend t ht])
  | tail hab hbc ih =>
      obtain ⟨hid, hdf, hrdc⟩ := ih
      refine ⟨(step_tasks_map_id hbc).trans hid, doneImpliesFinal_step hbc hdf, ?_⟩
      exact runningDepsCompleted_step (hid ▸ hnd) hbc hrdc

/-- After the driver has written a Completed or Failed status, no driver
or canceller step applies any more. -/
theorem no_step_of_final {reg : Registry} {init s s' : ExecState}
    (hwf : WellFormedInit init) (hre : Reachable reg init s)
    (hfinal : s.execStatus = .completed ∨ s.execStatus = .failed)
    (hstep : Step reg s s') : False := by
  have hdone : s.driverDone = true :=
    ((reachable_invariants hwf hre).2.1 (.inr hfinal)).1
  cases hstep with
  | dispatch t hmem hp hn hd hlive => simp [hdone] at hlive
  | finish t hmem hr hlive => simp [hdone] at hlive
  | loopExit hlive hall => simp [hdone] at hlive
  | cancel hrunning =>
      rcases hfinal with h | h <;> simp [h] at hrunning
  | tick hlive => simp [hdone] at hlive

/-! ## Concrete scenarios

A small registry in the style of the module's `__main__` block
(lines 371-434): one function that returns normally, one that raises.
`ghost_op` is deliberately never registered. -/

def demoRegistry : Registry :=
  [("ok_op", fun _ => .ok "done"), ("fail_op", fun _ => .error "This is a test error")]

def taskOkA : WorkflowTask := mkTask "A" "ok_op" []
def taskFailA : WorkflowTask := mkTask "A" "fail_op" []
def taskOkB : WorkflowTask := mkTask "B" "ok_op" []
def taskOkB_depA : WorkflowTask := mkTask "B" "ok_op" ["A"]
def taskGhostU : WorkflowTask := mkTask "U" "ghost_op" []

/-! ### Scenario B (spec §8): task A fails, B depends on A -/

def scB0 : ExecState := initExec "wf" "wf_0" [taskFailA, taskOkB_depA] 0

def scB1 : ExecState :=
  { scB0 with tasks := updateTask taskFailA.id (dispatchUpdate scB0.now) scB0.tasks,
              running := taskFailA.id :: scB0.running }

def taskFailA_run : WorkflowTask := dispatchUpdate 0 taskFailA

def scB2 : ExecState :=
  { scB1 with tasks := updateTask taskFailA_run.id
                (finishUpdate scB1.now (executeTask demoRegistry taskFailA_run)) scB1.tasks,
              running := scB1.running.erase taskFailA_run.id,
              completed := taskFailA_run.id :: scB1.completed }

def scB3 : ExecState :=
  { scB2 with tasks := updateTask taskOkB_depA.id (dispatchUpdate scB2.now) scB2.tasks,
              running := taskOkB_depA.id :: scB2.running }

def taskOkB_depA_run : WorkflowTask := dispatchUpdate 0 taskOkB_depA

def scB4 : ExecState :=
  { scB3 with tasks := updateTask taskOkB_depA_run.id
                (finishUpdate scB3.now (executeTask demoRegistry taskOkB_depA_run)) scB3.tasks,
              running := scB3.running.erase taskOkB_depA_run.id,
              completed := taskOkB_depA_run.id :: scB3.completed }

def scB5 : ExecState :=
  { scB4 with execStatus :=
                if scB4.tasks.any (fun t => t.status == .failed)
                then .failed else .completed,
              end_time := some scB4.now,
              total_execution_time := some ((scB4.now : Int) - (scB4.start_time : Int)),
              driverDone := true }

theorem scB_step01 : Step demoRegistry scB0 scB1 :=
  Step.dispatch scB0 taskFailA (by decide) (by decide) (by decide) (by decide) rfl

theorem scB_step12 : Step demoRegistry scB1 scB2 :=
  Step.finish scB1 taskFailA_run (by decide) (by decide) rfl

theorem scB_step23 : Step demoRegistry scB2 scB3 :=
  Step.dispatch scB2 taskOkB_depA (by decide) (by decide) (by decide) (by decide) rfl

theorem scB_step34 : Step demoRegistry scB3 scB4 :=
  Step.finish scB3 taskOkB_depA_run (by decide) (by decide) rfl

theorem scB_step45 : Step demoRegistry scB4 scB5 :=
  Step.loopExit scB4 rfl (by decide)

theorem scB_reach_final : Reachable demoRegistry scB0 scB5 :=
  Relation.ReflTransGen.tail
    (Relation.ReflTransGen.tail
      (Relation.ReflTransGen.tail
        (Relation.ReflTransGen.tail
          (Relation.ReflTransGen.single scB_step01) scB_step12) scB_step23)
      scB_step34) scB_step45

/-! ### Cancellation scenarios -/

def c2s0 : ExecState := initExec "wf" "wf_0" [taskOkA, taskOkB] 0

def c2s1 : ExecState := { c2s0 with execStatus := .cancelled }

def c2s2 : ExecState :=
  { c2s1 with tasks := updateTask taskOkA.id (dispatchUpdate c2s1.now) c2s1.tasks,
              running := taskOkA.id :: c2s1.running }

theorem c2_step01 : Step demoRegistry c2s0 c2s1 :=
  Step.cancel c2s0 rfl

theorem c2_step12 : Step demoRegistry c2s1 c2s2 :=
  Step.dispatch c2s1 taskOkA (by decide) (by decide) (by decide) (by decide) rfl

def c3s0 : ExecState := initExec "wf" "wf_0" [taskOkA] 0

def c3s1 : ExecState := { c3s0 with execStatus := .cancelled }

def c3s2 : ExecState :=
  { c3s1 with tasks := updateTask taskOkA.id (dispatchUpdate c3s1.now) c3s1.tasks,
              running := taskOkA.id :: c3s1.running }

def taskOkA_run : WorkflowTask := dispatchUpdate 0 taskOkA

def c3s3 : ExecState :=
  { c3s2 with tasks := updateTask taskOkA_run.id
                (finishUpdate c3s2.now (executeTask demoRegistry taskOkA_run)) c3s2.tasks,
              running := c3s2.running.erase taskOkA_run.id,
              completed := taskOkA_run.id :: c3s2.completed }

def c3s4 : ExecState :=
  { c3s3 with execStatus :=
                if c3s3.tasks.any (fun t => t.status == .failed)
                then .failed else .completed,
              end_time := some c3s3.now,
              total_execution_time := some ((c3s3.now : Int) - (c3s3.start_time : Int)),
              driverDone := true }

theorem c3_step01 : Step demoRegistry c3s0 c3s1 :=
  Step.cancel c3s0 rfl

theorem c3_step12 : Step demoRegistry c3s1 c3s2 :=
  Step.dispatch c3s1 taskOkA (by decide) (by decide) (by decide) (by decide) rfl

theorem c3_step23 : Step demoRegistry c3s2 c3s3 :=
  Step.finish c3s2 taskOkA_run (by decide) (by decide) rfl

theorem c3_step34 : Step demoRegistry c3s3 c3s4 :=
  Step.loopExit c3s3 rfl (by decide)

theorem c3_reach_cancelled : Reachable demoRegistry c3s0 c3s1 :=
  Relation.ReflTransGen.single c3_step01

theorem c3_cancelled_to_completed : Relation.ReflTransGen (Step demoRegistry) c3s1 c3s4 :=
  Relation.ReflTransGen.tail
    (Relation.ReflTransGen.tail
      (Relation.ReflTransGen.single c3_step12) c3_step23) c3_step34

/-! ### Scenario D (spec §8): an unregistered operation name -/

def c9s0 : ExecState := initExec "wf" "wf_0" [taskGhostU, taskOkB] 0

def c9s1 : ExecState :=
  { c9s0 with tasks := updateTask taskGhostU.id (dispatchUpdate c9s0.now) c9s0.tasks,
              running := taskGhostU.id :: c9s0.running }

def taskGhostU_run : WorkflowTask := dispatchUpdate 0 taskGhostU

def c9s2 : ExecState :=
  { c9s1 with tasks := updateTask taskGhostU_run.id
                (finishUpdate c9s1.now (executeTask demoRegistry taskGhostU_run)) c9s1.tasks,
              running := c9s1.running.erase taskGhostU_run.id,
              completed := taskGhostU_run.id :: c9s1.completed }

def c9s3 : ExecState :=
  { c9s2 with tasks := updateTask taskOkB.id (dispatchUpdate c9s2.now) c9s2.tasks,
              running := taskOkB.id :: c9s2.running }

def taskOkB_run : WorkflowTask := dispatchUpdate 0 taskOkB

def c9s4 : ExecState :=
  { c9s3 with tasks := updateTask taskOkB_run.id
                (finishUpdate c9s3.now (executeTask demoRegistry taskOkB_run)) c9s3.tasks,
              running := c9s3.running.erase taskOkB_run.id,
              completed := taskOkB_run.id :: c9s3.completed }

def c9s5 : ExecState :=
  { c9s4 with execStatus :=
                if c9s4.tasks.any (fun t => t.status == .failed)
                then .failed else .completed,
              end_time := some c9s4.now,
              total_execution_time := some ((c9s4.now : Int) - (c9s4.start_time : Int)),
              driverDone := true }

theorem c9_step01 : Step demoRegistry c9s0 c9s1 :=
  Step.dispatch c9s0 taskGhostU (by decide) (by decide) (by decide) (by decide) rfl

theorem c9_step12 : Step demoRegistry c9s1 c9s2 :=
  Step.finish c9s1 taskGhostU_run (by decide) (by decide) rfl

theorem c9_step23 : Step demoRegistry c9s2 c9s3 :=
  Step.dispatch c9s2 taskOkB (by decide) (by decide) (by decide) (by decide) rfl

theorem c9_step34 : Step demoRegistry c9s3 c9s4 :=
  Step.finish c9s3 taskOkB_run (by decide) (by decide) rfl

theorem c9_step45 : Step demoRegistry c9s4 c9s5 :=
  Step.loopExit c9s4 rfl (by decide)

theorem c9_reach_final : Reachable demoRegistry c9s0 c9s5 :=
  Relation.ReflTransGen.tail
    (Relation.ReflTransGen.tail
      (Relation.ReflTransGen.tail
        (Relation.ReflTransGen.tail
          (Relation.ReflTransGen.single c9_step01) c9_step12) c9_step23)
      c9_step34) c9_step45

/-! ### Timeout analysis

The `timeout` field of `WorkflowTask` (line 51) is never read anywhere
in `automation_workflow.py`: neither `_execute_workflow_async` nor
`_execute_task` mentions it.  `setTimeouts` rewrites every task's
timeout; the driver semantics commutes with it. -/

def setTaskTimeout (n : Nat) (t : WorkflowTask) : WorkflowTask :=
  { t with timeout := n }

def setTimeouts (n : Nat) (s : ExecState) : ExecState :=
  { s with tasks := s.tasks.map (setTaskTimeout n) }

theorem setTaskTimeout_id (n : Nat) (t : WorkflowTask) :
    (setTaskTimeout n t).id = t.id := rfl

theorem setTaskTimeout_status (n : Nat) (t : WorkflowTask) :
    (setTaskTimeout n t).status = t.status := rfl

theorem updateTask_map_comm (tid : String)
    (f g : WorkflowTask → WorkflowTask)
    (hg : ∀ t, (g t).id = t.id) (hfg : ∀ t, f (g t) = g (f t))
    (ts : List WorkflowTask) :
    updateTask tid f (ts.map g) = (updateTask tid f ts).map g := by
  induction ts with
  | nil => rfl
  | cons t ts ih =>
      simp only [List.map_cons, updateTask] at ih ⊢
      rw [ih, hg t]
      by_cases h : t.id = tid <;> simp [h, hfg]

theorem step_setTimeouts {reg : Registry} {s s' : ExecState} (n : Nat)
    (h : Step reg s s') :
    Step reg (setTimeouts n s) (setTimeouts n s') := by
  cases h with
  | dispatch t hmem hpending hnotrun hdeps hlive =>
      have htarget :
          Step reg (setTimeouts n s)
            { setTimeouts n s with
                tasks := updateTask (setTaskTimeout n t).id
                  (dispatchUpdate (setTimeouts n s).now) (setTimeouts n s).tasks,
                running := (setTaskTimeout n t).id :: (setTimeouts n s).running } :=
        Step.dispatch (setTimeouts n s) (setTaskTimeout n t)
          (List.mem_map_of_mem _ hmem) hpending hnotrun hdeps hlive
      have he : updateTask t.id (dispatchUpdate s.now) (s.tasks.map (setTaskTimeout n))
          = (updateTask t.id (dispatchUpdate s.now) s.tasks).map (setTaskTimeout n) :=
        updateTask_map_comm t.id (dispatchUpdate s.now) (setTaskTimeout n)
          (fun u => rfl) (fun u => rfl) s.tasks
      simpa [setTimeouts, setTaskTimeout_id, he] using htarget
  | finish t hmem hrun hlive =>
      have htarget :
          Step reg (setTimeouts n s)
            { setTimeouts n s with
                tasks := updateTask (setTaskTimeout n t).id
                  (finishUpdate (setTimeouts n s).now
                    (executeTask reg (setTaskTimeout n t))) (setTimeouts n s).tasks,
                running := (setTimeouts n s).running.erase (setTaskTimeout n t).id,
                completed := (setTaskTimeout n t).id :: (setTimeouts n s).completed } :=
        Step.finish (setTimeouts n s) (setTaskTimeout n t)
          (List.mem_map_of_mem _ hmem) hrun hlive
      have hexec : executeTask reg (setTaskTimeout n t) = executeTask reg t := rfl
      have he : updateTask t.id (finishUpdate s.now (executeTask reg t))
            (s.tasks.map (setTaskTimeout n))
          = (updateTask t.id (finishUpdate s.now (executeTask reg t)) s.tasks).map
              (setTaskTimeout n) :=
        updateTask_map_comm t.id (finishUpdate s.now (executeTask reg t))
          (setTaskTimeout n) (fun u => rfl)
          (fun u => by cases hres : executeTask reg t <;> rfl) s.tasks
      simpa [setTimeouts, setTaskTimeout_id, hexec, he] using htarget
  | loopExit hlive hall =>
      have hany : (s.tasks.map (setTaskTimeout n)).any (fun t => t.status == .failed)
          = s.tasks.any (fun t => t.status == .failed) := by
        simp [List.any_map, Function.comp_def, setTaskTimeout_status]
      have htarget :
          Step reg (setTimeouts n s)
            { setTimeouts n s with
                execStatus :=
                  if (setTimeouts n s).tasks.any (fun t => t.status == .failed)
                  then .failed else .completed,
                end_time := some (setTimeouts n s).now,
                total_execution_time :=
                  some (((setTimeouts n s).now : Int) - ((setTimeouts n s).start_time : Int)),
                driverDone := true } :=
        Step.loopExit (setTimeouts n s) hlive (by simpa [setTimeouts] using hall)
      simpa [setTimeouts, hany] using htarget
  | cancel hrunning =>
      exact Step.cancel (setTimeouts n s) hrunning
  | tick hlive =>
      exact Step.tick (setTimeouts n s) hlive

/-- A task whose declared timeout is 1 second. -/
def taskSlow : WorkflowTask := { mkTask "S" "slow_op" [] with timeout := 1 }

def c7Registry : Registry := [("slow_op", fun _ => .ok "late")]

def c7s0 : ExecState := initExec "wf" "wf_0" [taskSlow] 0

/-- State of the slow execution after the dispatch of `S` and `n` further
seconds of busy-wait polling with the operation still in flight. -/
def c7state : Nat → ExecState
  | 0 =>
      { c7s0 with tasks := updateTask taskSlow.id (dispatchUpdate c7s0.now) c7s0.tasks,
                  running := taskSlow.id :: c7s0.running }
  | n + 1 => { c7state n with now := (c7state n).now + 1 }

theorem c7state_tasks (n : Nat) : (c7state n).tasks = (c7state 0).tasks := by
  induction n with
  | zero => rfl
  | succ n ih => exact ih

theorem c7state_driverDone (n : Nat) : (c7state n).driverDone = false := by
  induction n with
  | zero => rfl
  | succ n ih => exact ih

theorem c7state_now (n : Nat) : (c7state n).now = n := by
  induction n with
  | zero => rfl
  | succ n ih => simp [c7state, ih]

theorem c7_reach (n : Nat) : Reachable c7Registry c7s0 (c7state n) := by
  induction n with
  | zero =>
      exact Relation.ReflTransGen.single
        (Step.dispatch c7s0 taskSlow (by decide) (by decide) (by decide) (by decide) rfl)
  | succ n ih =>
      exact Relation.ReflTransGen.tail ih (Step.tick (c7state n) (c7state_driverDone n))

/-! ### Engine-level runs: shared task objects and id allocation -/

/-- An engine holding one workflow `"wf"` with the single task `A`. -/
def engDef : EngineState := create_workflow {} "wf" [taskOkA]

/-- First start of `"wf"`, at wall-clock second 100. -/
def engRun1 : String × EngineState :=
  (execute_workflow engDef "wf" 100).getD ("", engDef)

/-- The first execution's driver completes task `A` (writing through the
shared task object at heap reference 0). -/
def engAfterRun1 : EngineState := driverCompleteTask engRun1.2 0 "done" 101

/-- Second start of `"wf"`, at wall-clock second 105, after the first
run finished. -/
def engRun2 : String × EngineState :=
  (execute_workflow engAfterRun1 "wf" 105).getD ("", engAfterRun1)

/-- A second start of `"wf"` within the same wall-clock second as the
first (`int(time.time())` still 100). -/
def engRun1b : String × EngineState :=
  (execute_workflow engRun1.2 "wf" 100).getD ("", engRun1.2)

/-- The state `_execute_workflow_async` leaves behind when it records the
result of `t`'s future (lines 152-169). -/
def finishTarget (reg : Registry) (s : ExecState) (t : WorkflowTask) : ExecState :=
  { s with tasks := updateTask t.id
             (finishUpdate s.now (executeTask reg t)) s.tasks,
           running := s.running.erase t.id,
           completed := t.id :: s.completed }

/-- Step preservation of the final-status aggregate: after any step out
of a state satisfying `DoneImpliesFinal`, a returned driver reports
Failed exactly when some task is Failed. -/
theorem finalAggregates_step {reg : Registry} {s s' : ExecState}
    (hstep : Step reg s s') (hdf : DoneImpliesFinal s)
    (_hprev : s.driverDone = true →
      (s.execStatus = .failed ↔ ∃ t ∈ s.tasks, t.status = .failed)) :
    s'.driverDone = true →
      (s'.execStatus = .failed ↔ ∃ t ∈ s'.tasks, t.status = .failed) := by
  cases hstep with
  | dispatch t hmem hp hn hd hlive =>
      intro hdone
      exact absurd hdone (by simp [hlive])
  | finish t hmem hr hlive =>
      intro hdone
      exact absurd hdone (by simp [hlive])
  | loopExit hlive hall =>
      intro _
      by_cases hany : s.tasks.any (fun t => t.status == .failed)
      · have hx : ∃ t ∈ s.tasks, t.status = .failed := by
          simpa [List.any_eq_true] using hany
        simp [hany, hx]
      · have hx : ¬ ∃ t ∈ s.tasks, t.status = .failed := by
          simpa [List.any_eq_true] using hany
        simp [hany, hx]
  | cancel hrunning =>
      intro hdone
      rcases (hdf (.inl hdone)).2 with h | h <;> simp [h] at hrunning
  | tick hlive =>
      intro hdone
      exact absurd hdone (by simp [hlive])

/-- Once the driver has returned, the execution status is Failed exactly
when some task is Failed (the aggregate of lines 173-180). -/
theorem reachable_final_aggregates {reg : Registry} {init s : ExecState}
    (hwf : WellFormedInit init) (hre : Reachable reg init s)
    (hdone : s.driverDone = true) :
    s.execStatus = .failed ↔ ∃ t ∈ s.tasks, t.status = .failed := by
  induction hre with
  | refl => exact absurd hdone (by simp [hwf.2.1])
  | tail hab hbc ih =>
      exact finalAggregates_step hbc ((reachable_invariants hwf hab).2.1) ih hdone

/-- The scenario-B initial execution is fresh and well formed. -/
theorem scB0_wellformed : WellFormedInit scB0 :=
  ⟨rfl, rfl, by decide, by decide, rfl, rfl⟩

/-- Reachability of the scenario-B state in which `B` has just been
dispatched. -/
theorem scB_reach3 : Reachable demoRegistry scB0 scB3 :=
  Relation.ReflTransGen.tail
    (Relation.ReflTransGen.tail
      (Relation.ReflTransGen.single scB_step01) scB_step12) scB_step23

/-! ## Claims -/

/-- C1: `execute_workflow` is claimed to instantiate the execution with a
deep copy of the stored task list, every task of a new execution starting
Pending, and mutations while driving one execution never reaching the
stored definition or other executions.  The code's list comprehension
copies only the list, so the task objects stay shared: after the first
run of `"wf"` completed its task, a second `execute_workflow` produces an
execution whose task is already Completed, and the stored definition and
the first execution show the same mutated object. -/
theorem shallow_copy_shares_task_objects :
    engRun1.1 = "wf_100" ∧ engRun2.1 = "wf_105" ∧
    executionTaskStatuses engRun1.2 "wf_100" = some [some .pending] ∧
    executionTaskStatuses engRun2.2 "wf_105" = some [some .completed] ∧
    workflowTaskStatuses engRun2.2 "wf" = some [some .completed] ∧
    executionTaskStatuses engRun2.2 "wf_100" = some [some .completed] := by
  exact ⟨rfl, rfl, by decide, by decide, by decide, by decide⟩

/-- C2: `cancel_execution` on a Running execution flips it to Cancelled
and returns true — but the driver loop of `_execute_workflow_async`
never reads the execution status, so a Pending task is still dispatched
(marked Running) after the cancellation took effect: from the cancelled
state `c2s1` the dispatch of task `A` is a legal driver step. -/
theorem cancel_does_not_stop_dispatch :
    (cancel_execution c2s0).1 = true ∧
    (cancel_execution c2s0).2 = c2s1 ∧
    c2s1.execStatus = .cancelled ∧
    taskStatusOf c2s1 "A" = some .pending ∧
    Step demoRegistry c2s1 c2s2 ∧
    taskStatusOf c2s2 "A" = some .running ∧
    Reachable demoRegistry c2s0 c2s2 :=
  ⟨rfl, by decide, rfl, by decide, c2_step12, by decide,
    Relation.ReflTransGen.tail (Relation.ReflTransGen.single c2_step01) c2_step12⟩

/-- C3 (counterexample): Cancelled is a terminal status, yet the driver
overwrites it.  From a fresh one-task execution, cancelling yields
status Cancelled; afterwards the driver dispatches, finishes and exits
its loop, and the execution status has become Completed. -/
theorem cancelled_status_overwritten :
    Reachable demoRegistry c3s0 c3s1 ∧
    c3s1.execStatus = .cancelled ∧
    Relation.ReflTransGen (Step demoRegistry) c3s1 c3s4 ∧
    c3s4.execStatus = .completed :=
  ⟨c3_reach_cancelled, rfl, c3_cancelled_to_completed, by decide⟩

/-- C3 (amended): once an execution's status has reached Completed or
Failed, no driver or canceller step applies any more, so the state —
and with it every snapshot returned by `get_execution_status` — never
changes again.  (A Cancelled status enjoys no such stability: the
driver's loop exit overwrites it, see `cancelled_status_overwritten`.) -/
theorem completed_failed_frozen (reg : Registry) (init s s' : ExecState)
    (hwf : WellFormedInit init) (hre : Reachable reg init s)
    (hterm : s.execStatus = .completed ∨ s.execStatus = .failed)
    (hre2 : Relation.ReflTransGen (Step reg) s s') :
    s' = s ∧ get_execution_status_snapshot s' = get_execution_status_snapshot s := by
  have heq : s' = s := by
    induction hre2 with
    | refl => rfl
    | tail hab hbc ih =>
        exact absurd (ih ▸ hbc) fun hstep => no_step_of_final hwf hre hterm hstep
  exact ⟨heq, by rw [heq]⟩

/-- Witness for `completed_failed_frozen` at the finished scenario-B
execution. -/
theorem completed_failed_frozen_witness :
    scB5 = scB5 ∧
    get_execution_status_snapshot scB5 = get_execution_status_snapshot scB5 :=
  completed_failed_frozen demoRegistry scB0 scB5 scB5 scB0_wellformed
    scB_reach_final (.inr (by decide)) Relation.ReflTransGen.refl

/-- C4: dependency satisfaction is membership of the dependency id in the
driver's completed set, not success: in scenario B task `A` fails, task
`B` (which depends on `A`) is dispatched afterwards anyway, `B`
completes, and on loop exit the execution is Failed.  In general, once
the driver is done the execution status is Failed exactly when some task
is Failed and Completed otherwise. -/
theorem failed_dependency_unblocks :
    (taskStatusOf scB2 "A" = some .failed ∧
     taskStatusOf scB2 "B" = some .pending ∧
     Step demoRegistry scB2 scB3 ∧
     taskStatusOf scB3 "B" = some .running) ∧
    (Reachable demoRegistry scB0 scB5 ∧
     taskStatusOf scB5 "A" = some .failed ∧
     taskStatusOf scB5 "B" = some .completed ∧
     scB5.execStatus = .failed ∧ scB5.driverDone = true) ∧
    (∀ (reg : Registry) (init s : ExecState),
       WellFormedInit init → Reachable reg init s → s.driverDone = true →
       (s.execStatus = .failed ↔ ∃ t ∈ s.tasks, t.status = .failed)) :=
  ⟨⟨by decide, by decide, scB_step23, by decide⟩,
   ⟨scB_reach_final, by decide, by decide, by decide, rfl⟩,
   fun reg init s hwf hre hdone => reachable_final_aggregates hwf hre hdone⟩

/-- Witness for the universal part of `failed_dependency_unblocks` at the
finished scenario-B execution. -/
theorem failed_dependency_unblocks_witness :
    scB5.execStatus = .failed ↔ ∃ t ∈ scB5.tasks, t.status = .failed :=
  failed_dependency_unblocks.2.2 demoRegistry scB0 scB5 scB0_wellformed
    scB_reach_final rfl

/-- C5: in every state reachable from a fresh execution (all tasks
Pending, unique ids), a Running task has every one of its dependency ids
in the driver's completed set — a task is never observed Running before
its dependencies are terminal. -/
theorem running_task_deps_completed (reg : Registry) (init s : ExecState)
    (hwf : WellFormedInit init) (hre : Reachable reg init s) :
    ∀ t ∈ s.tasks, t.status = .running → ∀ d ∈ t.dependencies, d ∈ s.completed :=
  (reachable_invariants hwf hre).2.2

/-- Witness for `running_task_deps_completed` at the scenario-B state in
which `B` is Running: its dependency `"A"` is in the completed set. -/
theorem running_task_deps_completed_witness : "A" ∈ scB3.completed :=
  running_task_deps_completed demoRegistry scB0 scB3 scB0_wellformed scB_reach3
    taskOkB_depA_run (by decide) (by decide) "A" (by decide)

/-- A task that has exhausted its retry budget: Failed with
`retry_count = max_retries = 3`. -/
def taskExhausted : WorkflowTask :=
  { mkTask "T" "ok_op" [] with status := .failed, retry_count := 3,
                               error := some "This is a test error" }

/-- A failed task with one retry spent out of the default budget of 3. -/
def taskRetryable : WorkflowTask :=
  { mkTask "T" "ok_op" [] with status := .failed, retry_count := 1,
                               error := some "This is a test error" }

/-- A recovery table whose `"ValueError"` strategy always succeeds. -/
def alwaysRecover : StrategyTable := [("ValueError", fun _ _ => .ok true)]

/-- C6 (counterexample): `attempt_recovery` enforces no budget.  On a
task whose retry count already equals its `max_retries` of 3, a
successful strategy still resets it and pushes the retry count to 4,
exceeding the budget. -/
theorem retry_budget_exceeded :
    taskExhausted.retry_count = taskExhausted.max_retries ∧
    (attempt_recovery alwaysRecover taskExhausted "ValueError" "This is a test error").1 = true ∧
    (attempt_recovery alwaysRecover taskExhausted "ValueError" "This is a test error").2.retry_count = 4 ∧
    taskExhausted.max_retries = 3 := by
  exact ⟨rfl, rfl, rfl, rfl⟩

/-- C6 (amended): when a registered strategy for the error's
classification succeeds, `attempt_recovery` resets the task to Pending,
increments its retry count and clears its error; and the retry count
stays within `max_retries` whenever recovery is attempted only on tasks
for which `should_retry` holds — `attempt_recovery` itself never checks
the budget. -/
theorem attempt_recovery_spec :
    (∀ (strategies : StrategyTable) (task : WorkflowTask) (et err : String)
       (strat : WorkflowTask → String → Except String Bool),
       List.lookup et strategies = some strat →
       strat task err = .ok true →
       attempt_recovery strategies task et err =
         (true, { task with status := .pending,
                            retry_count := task.retry_count + 1,
                            error := none })) ∧
    (∀ (strategies : StrategyTable) (task : WorkflowTask) (et err : String),
       should_retry task = true →
       (attempt_recovery strategies task et err).2.retry_count ≤ task.max_retries) := by
  constructor
  · intro strategies task et err strat hlookup hok
    simp [attempt_recovery, hlookup, hok]
  · intro strategies task et err hretry
    have hlt : task.retry_count < task.max_retries := by
      have h := hretry
      simp only [should_retry, Bool.and_eq_true, beq_iff_eq, decide_eq_true_eq] at h
      exact h.2
    cases hcase : List.lookup et strategies with
    | none =>
        simp [attempt_recovery, hcase]
        omega
    | some strat =>
        cases hres : strat task err with
        | error e =>
            simp [attempt_recovery, hcase, hres]
            omega
        | ok b =>
            cases b <;> simp [attempt_recovery, hcase, hres] <;> omega

/-- Witness for `attempt_recovery_spec` on a failed task inside its
budget. -/
theorem attempt_recovery_spec_witness :
    attempt_recovery alwaysRecover taskRetryable "ValueError" "This is a test error" =
      (true, { taskRetryable with status := .pending,
                                  retry_count := taskRetryable.retry_count + 1,
                                  error := none }) ∧
    (attempt_recovery alwaysRecover taskRetryable "ValueError" "This is a test error").2.retry_count ≤
      taskRetryable.max_retries :=
  ⟨attempt_recovery_spec.1 alwaysRecover taskRetryable "ValueError"
      "This is a test error" (fun _ _ => .ok true) rfl rfl,
   attempt_recovery_spec.2 alwaysRecover taskRetryable "ValueError"
      "This is a test error" (by decide)⟩

/-- C7: no part of the engine reads a task's `timeout` — the driver
semantics commutes with rewriting every task's timeout to any value —
and a dispatched task whose operation has not returned stays Running
through arbitrarily many polling iterations: after `n` ticks the slow
task (declared timeout 1 second) is still Running with the clock at
`n` seconds past its start, never converted to Failed. -/
theorem timeout_never_enforced :
    (∀ (reg : Registry) (n : Nat) (s s' : ExecState),
       Step reg s s' → Step reg (setTimeouts n s) (setTimeouts n s')) ∧
    (∀ n : Nat,
       Reachable c7Registry c7s0 (c7state n) ∧
       taskStatusOf (c7state n) "S" = some .running ∧
       (∀ t ∈ (c7state n).tasks, t.timeout = 1) ∧
       (c7state n).now = c7s0.now + n) := by
  constructor
  · intro reg n s s' h
    exact step_setTimeouts n h
  · intro n
    have htasks : (c7state n).tasks = (c7state 0).tasks := c7state_tasks n
    refine ⟨c7_reach n, ?_, ?_, ?_⟩
    · unfold taskStatusOf
      rw [htasks]
      decide
    · rw [htasks]
      decide
    · rw [c7state_now n]
      show n = 0 + n
      omega

/-- Witness for `timeout_never_enforced`: the timeout-rewritten dispatch
step, and the slow task still Running after five seconds. -/
theorem timeout_never_enforced_witness :
    Step c7Registry (setTimeouts 7 c7s0) (setTimeouts 7 (c7state 0)) ∧
    taskStatusOf (c7state 5) "S" = some .running :=
  ⟨timeout_never_enforced.1 c7Registry 7 c7s0 (c7state 0)
      (Step.dispatch c7s0 taskSlow (by decide) (by decide) (by decide) (by decide) rfl),
   (timeout_never_enforced.2 5).2.1⟩

/-- C8: execution ids are `f"{workflow_id}_{int(time.time())}"`.  Two
starts of the same workflow within the same wall-clock second allocate
the identical id `"wf_100"`, and the second stored execution shadows the
first in the executions map — ids are not unique across the process
lifetime. -/
theorem execution_id_collision :
    engRun1.1 = "wf_100" ∧ engRun1b.1 = "wf_100" ∧
    engRun1b.1 = engRun1.1 ∧
    engRun1b.2.executions.map Prod.fst = ["wf_100", "wf_100"] := by
  exact ⟨rfl, rfl, rfl, rfl⟩

/-- C9: recording the future of a task whose operation name is not in the
registry marks that task Failed with the error
`"Function <name> not registered"` and adds it to the completed set, and
the driver carries on: in scenario D the sibling task `B` is dispatched
after the unregistered task `U` failed, `B` completes, and the driver
exits its loop normally. -/
theorem unregistered_function_fails_task :
    (∀ (reg : Registry) (s : ExecState) (t : WorkflowTask),
       t ∈ s.tasks → t.id ∈ s.running → s.driverDone = false →
       List.lookup t.function reg = none →
       Step reg s (finishTarget reg s t) ∧
       (∀ u ∈ (finishTarget reg s t).tasks, u.id = t.id →
          u.status = .failed ∧
          u.error = some ("Function " ++ t.function ++ " not registered")) ∧
       t.id ∈ (finishTarget reg s t).completed) ∧
    (Reachable demoRegistry c9s0 c9s5 ∧
     taskStatusOf c9s2 "U" = some .failed ∧
     taskErrorOf c9s2 "U" = some (some "Function ghost_op not registered") ∧
     Step demoRegistry c9s2 c9s3 ∧
     taskStatusOf c9s3 "B" = some .running ∧
     taskStatusOf c9s5 "U" = some .failed ∧
     taskStatusOf c9s5 "B" = some .completed ∧
     c9s5.execStatus = .failed ∧ c9s5.driverDone = true) := by
  constructor
  · intro reg s t hmem hrun hlive hlookup
    have hexec : executeTask reg t =
        .error ("Function " ++ t.function ++ " not registered") := by
      unfold executeTask
      rw [hlookup]
    refine ⟨Step.finish s t hmem hrun hlive, ?_, List.mem_cons_self _ _⟩
    intro u hu hid
    obtain ⟨v, hv, rfl⟩ := mem_updateTask hu
    by_cases h : v.id = t.id
    · simp [if_pos h, hexec, finishUpdate]
    · simp only [if_neg h] at hid
      exact absurd hid h
  · exact ⟨c9_reach_final, by decide, by decide, c9_step23, by decide,
      by decide, by decide, by decide, rfl⟩

/-- Witness for the universal part of `unregistered_function_fails_task`
at the concrete state in which the unregistered task `U` is in flight. -/
theorem unregistered_function_fails_task_witness :
    Step demoRegistry c9s1 (finishTarget demoRegistry c9s1 taskGhostU_run) ∧
    (∀ u ∈ (finishTarget demoRegistry c9s1 taskGhostU_run).tasks,
       u.id = taskGhostU_run.id →
       u.status = .failed ∧
       u.error = some ("Function " ++ taskGhostU_run.function ++ " not registered")) ∧
    taskGhostU_run.id ∈ (finishTarget demoRegistry c9s1 taskGhostU_run).completed :=
  unregistered_function_fails_task.1 demoRegistry c9s1 taskGhostU_run
    (by decide) (by decide) rfl rfl

/-- The metric history of the spec §8 round trip: three numeric samples
10, 20, 30 under `"latency"` at seconds 960, 970, 980, and two
non-numeric samples under `"notes"`. -/
def m10 : MetricsTable :=
  [("latency", [⟨960, .num 10⟩, ⟨970, .num 20⟩, ⟨980, .num 30⟩]),
   ("notes", [⟨960, .other "deploy"⟩, ⟨970, .other "restart"⟩])]

/-- `m10` is exactly what five `record_metric` calls build up. -/
theorem m10_recorded :
    record_metric
      (record_metric
        (record_metric
          (record_metric
            (record_metric [] "latency" ⟨960, .num 10⟩)
            "latency" ⟨970, .num 20⟩)
          "latency" ⟨980, .num 30⟩)
        "notes" ⟨960, .other "deploy"⟩)
      "notes" ⟨970, .other "restart"⟩ = m10 := by
  decide

/-- C10: over a window holding exactly the numeric samples 10, 20, 30,
`get_metric_summary` reports count 3, min 10, max 30, mean 20 and latest
30; it reports the empty result for any metric name absent from the
table; and it reports a count-only result when the samples in the window
are all non-numeric. -/
theorem metric_summary_spec :
    get_metric_summary m10 "latency" 1000 (some 50) = .stats 3 10 30 20 30 ∧
    (∀ (metrics : MetricsTable) (name : String) (now : Int) (w : Option Int),
       List.lookup name metrics = none →
       get_metric_summary metrics name now w = .empty) ∧
    get_metric_summary m10 "missing" 1000 none = .empty ∧
    get_metric_summary m10 "notes" 1000 (some 50) = .countOnly 2 := by
  refine ⟨?_, ?_, ?_, ?_⟩
  · norm_num [get_metric_summary, m10, lastValue,
      List.filterMap_cons, MetricValue.toNum]
  · intro metrics name now w hlookup
    simp [get_metric_summary, hlookup]
  · rfl
  · rfl

/-- Witness for the unknown-name clause of `metric_summary_spec`. -/
theorem metric_summary_spec_witness :
    get_metric_summary m10 "never_recorded" 42 (some 7) = .empty :=
  metric_summary_spec.2.1 m10 "never_recorded" 42 (some 7) rfl

end AutomationWorkflow
